import Mathlib

/-!
Verification of the Ollama stream-decoding adapter (next-js-ai-lite).

The development shallowly embeds the TypeScript source:

* JS strings are modelled as `List Char`; byte buffers as `List Nat`
  (each entry one byte).
* `String.prototype.trim`, `String.prototype.split("\n")`,
  `Array.prototype.join("\n")`, `JSON.parse`, `String()` coercion and
  `TextDecoder` are platform builtins used by the source; they are modelled
  from their standard (ECMA-262 / WHATWG) semantics.
* The four source variants of the adapter are embedded separately where they
  differ: the buffered `transformOllamaStream` transform, and the unbuffered
  per-chunk read loops of `continueTextConversation` (src/src/app/actions.tsx)
  and `accumulateOllamaResponse`.
-/

namespace NextJsAiLite

/-! ### JS string primitives -/

/-- Newline character used by the `split("\n")` calls in the source. -/
def nlChar : Char := Char.ofNat 10

/-- Double-quote character. -/
def qChar : Char := Char.ofNat 34

/-- Backslash character. -/
def bsChar : Char := Char.ofNat 92

/-- Whitespace per ECMA-262 `String.prototype.trim` (WhiteSpace and
LineTerminator code points). -/
def jsWhitespace (c : Char) : Bool :=
  c = Char.ofNat 0x9 || c = Char.ofNat 0xA || c = Char.ofNat 0xB ||
  c = Char.ofNat 0xC || c = Char.ofNat 0xD || c = Char.ofNat 0x20 ||
  c = Char.ofNat 0xA0 || c = Char.ofNat 0x1680 ||
  c = Char.ofNat 0x2000 || c = Char.ofNat 0x2001 || c = Char.ofNat 0x2002 ||
  c = Char.ofNat 0x2003 || c = Char.ofNat 0x2004 || c = Char.ofNat 0x2005 ||
  c = Char.ofNat 0x2006 || c = Char.ofNat 0x2007 || c = Char.ofNat 0x2008 ||
  c = Char.ofNat 0x2009 || c = Char.ofNat 0x200A ||
  c = Char.ofNat 0x2028 || c = Char.ofNat 0x2029 ||
  c = Char.ofNat 0x202F || c = Char.ofNat 0x205F || c = Char.ofNat 0x3000 ||
  c = Char.ofNat 0xFEFF

/-- Model of `s.trim()`. -/
def jsTrim (s : List Char) : List Char :=
  ((s.dropWhile jsWhitespace).reverse.dropWhile jsWhitespace).reverse

/-- Model of the `line.trim().length > 0` / truthiness of `line.trim()`
tests in the source. -/
def trimNonempty (l : List Char) : Bool :=
  !(jsTrim l).isEmpty

/-- Split a string at newline characters, returning the complete lines
(pieces before each newline) and the trailing piece after the last newline.
`s.split("\n")` in JS returns the complete lines followed by the trailing
piece; the source either consumes all pieces (unbuffered loops) or pops the
trailing piece back into its buffer (`transformOllamaStream`). -/
def breakNl : List Char → List (List Char) × List Char
  | [] => ([], [])
  | c :: cs =>
    let p := breakNl cs
    if c = nlChar then ([] :: p.1, p.2)
    else
      match p.1 with
      | [] => ([], c :: p.2)
      | l :: ls => ((c :: l) :: ls, p.2)

/-- Model of `s.split("\n")`: all pieces, the trailing piece last. -/
def jsSplit (s : List Char) : List (List Char) :=
  (breakNl s).1 ++ [(breakNl s).2]

/-- Merge a retained tail with the split of a following string: the tail
extends the first piece of the second split. -/
def mergeBreak (t : List Char) (p : List (List Char) × List Char) :
    List (List Char) × List Char :=
  match p.1 with
  | [] => ([], t ++ p.2)
  | l :: ls => ((t ++ l) :: ls, p.2)

/-- Model of `arr.join("\n")` on a list of strings. -/
def joinNl : List (List Char) → List Char
  | [] => []
  | [s] => s
  | s :: ss => s ++ nlChar :: joinNl ss

/-! ### JSON values and `JSON.parse`

The stream lines are parsed with the platform builtin `JSON.parse`; it is
modelled by a recursive-descent parser of the JSON grammar (ECMA-404) over
`List Char`, fuelled by the input length.  Numeric tokens are kept as their
source text (no claim depends on numeric values).  JS strings are UTF-16 and
may hold lone surrogates, which `Char` cannot; a lone surrogate escape is
modelled as U+FFFD (no claim depends on it). -/

/-- A JSON value as produced by `JSON.parse`. -/
inductive Json where
  | null : Json
  | bool : Bool → Json
  | num : List Char → Json
  | str : List Char → Json
  | arr : List Json → Json
  | obj : List (List Char × Json) → Json

/-- Whitespace accepted between JSON tokens (ECMA-404). -/
def jsonWsChar (c : Char) : Bool :=
  c = Char.ofNat 0x20 || c = Char.ofNat 0x9 || c = Char.ofNat 0xA ||
  c = Char.ofNat 0xD

/-- Drop leading JSON whitespace. -/
def skipWs (s : List Char) : List Char := s.dropWhile jsonWsChar

/-- Decimal digit test. -/
def isDigit (c : Char) : Bool := Char.ofNat 48 ≤ c && c ≤ Char.ofNat 57

/-- Value of a hexadecimal digit. -/
def hexVal (c : Char) : Option Nat :=
  if Char.ofNat 48 ≤ c && c ≤ Char.ofNat 57 then some (c.toNat - 48)
  else if Char.ofNat 97 ≤ c && c ≤ Char.ofNat 102 then some (c.toNat - 87)
  else if Char.ofNat 65 ≤ c && c ≤ Char.ofNat 70 then some (c.toNat - 55)
  else none

/-- Read four hexadecimal digits. -/
def hex4 : List Char → Option (Nat × List Char)
  | a :: b :: c :: d :: rest => do
    let x ← hexVal a
    let y ← hexVal b
    let z ← hexVal c
    let w ← hexVal d
    some ((((x * 16 + y) * 16 + z) * 16 + w : Nat), rest)
  | _ => none

/-- Single-character JSON string escapes. -/
def escChar (e : Char) : Option Char :=
  if e = qChar then some qChar
  else if e = bsChar then some bsChar
  else if e = Char.ofNat 47 then some (Char.ofNat 47)
  else if e = Char.ofNat 98 then some (Char.ofNat 8)
  else if e = Char.ofNat 102 then some (Char.ofNat 12)
  else if e = Char.ofNat 110 then some (Char.ofNat 10)
  else if e = Char.ofNat 114 then some (Char.ofNat 13)
  else if e = Char.ofNat 116 then some (Char.ofNat 9)
  else none

/-- Body of a JSON string literal, after the opening quote: returns the
decoded contents and the remaining input after the closing quote. -/
def strBody : Nat → List Char → Option (List Char × List Char)
  | 0, _ => none
  | _ + 1, [] => none
  | f + 1, c :: rest =>
    if c = qChar then some ([], rest)
    else if c = bsChar then
      match rest with
      | [] => none
      | e :: r2 =>
        if e = Char.ofNat 117 then
          match hex4 r2 with
          | none => none
          | some (n, r3) =>
            if 0xD800 ≤ n && n ≤ 0xDBFF then
              match r3 with
              | u1 :: u2 :: r4 =>
                if u1 = bsChar && u2 = Char.ofNat 117 then
                  match hex4 r4 with
                  | some (m, r5) =>
                    if 0xDC00 ≤ m && m ≤ 0xDFFF then
                      (strBody f r5).map fun p =>
                        (Char.ofNat (0x10000 + (n - 0xD800) * 0x400 + (m - 0xDC00)) :: p.1, p.2)
                    else (strBody f r3).map fun p => (Char.ofNat 0xFFFD :: p.1, p.2)
                  | none => (strBody f r3).map fun p => (Char.ofNat 0xFFFD :: p.1, p.2)
                else (strBody f r3).map fun p => (Char.ofNat 0xFFFD :: p.1, p.2)
              | _ => (strBody f r3).map fun p => (Char.ofNat 0xFFFD :: p.1, p.2)
            else if 0xDC00 ≤ n && n ≤ 0xDFFF then
              (strBody f r3).map fun p => (Char.ofNat 0xFFFD :: p.1, p.2)
            else
              (strBody f r3).map fun p => (Char.ofNat n :: p.1, p.2)
        else
          match escChar e with
          | some ch => (strBody f r2).map fun p => (ch :: p.1, p.2)
          | none => none
    else if c.toNat < 0x20 then none
    else (strBody f rest).map fun p => (c :: p.1, p.2)

/-- Take leading decimal digits. -/
def takeDigits (s : List Char) : List Char × List Char :=
  (s.takeWhile isDigit, s.dropWhile isDigit)

/-- Scan a JSON number token; returns its source text and the rest. -/
def scanNum (s : List Char) : Option (List Char × List Char) :=
  let sgnPair : List Char × List Char :=
    match s with
    | c :: rest => if c = Char.ofNat 45 then ([c], rest) else ([], s)
    | [] => ([], s)
  match sgnPair.2 with
  | [] => none
  | c :: rest =>
    let intPair : Option (List Char × List Char) :=
      if c = Char.ofNat 48 then some ([c], rest)
      else if isDigit c then
        let d := takeDigits rest
        some (c :: d.1, d.2)
      else none
    match intPair with
    | none => none
    | some (ip, s2) =>
      let fracPair : Option (List Char × List Char) :=
        match s2 with
        | d :: r =>
          if d = Char.ofNat 46 then
            let t := takeDigits r
            if t.1.isEmpty then none else some (d :: t.1, t.2)
          else some ([], s2)
        | [] => some ([], s2)
      match fracPair with
      | none => none
      | some (fp, s3) =>
        let expPair : Option (List Char × List Char) :=
          match s3 with
          | e :: r =>
            if e = Char.ofNat 101 || e = Char.ofNat 69 then
              let sgn2 : List Char × List Char :=
                match r with
                | g :: r2 =>
                  if g = Char.ofNat 43 || g = Char.ofNat 45 then ([g], r2)
                  else ([], r)
                | [] => ([], r)
              let t := takeDigits sgn2.2
              if t.1.isEmpty then none else some (e :: sgn2.1 ++ t.1, t.2)
            else some ([], s3)
          | [] => some ([], s3)
        match expPair with
        | none => none
        | some (ep, s4) => some (sgnPair.1 ++ ip ++ fp ++ ep, s4)

/-- Match a literal keyword tail ("rue", "alse", "ull"). -/
def stripLead : List Char → List Char → Option (List Char)
  | [], s => some s
  | _ :: _, [] => none
  | p :: ps, c :: cs => if c = p then stripLead ps cs else none

mutual

/-- Parse one JSON value (fuel-driven recursive descent). -/
def parseVal : Nat → List Char → Option (Json × List Char)
  | 0, _ => none
  | _ + 1, [] => none
  | f + 1, c :: rest =>
    if c = qChar then (strBody f rest).map fun p => (Json.str p.1, p.2)
    else if c = Char.ofNat 123 then parseObjStart f rest
    else if c = Char.ofNat 91 then parseArrStart f rest
    else if c = Char.ofNat 116 then
      (stripLead ("rue".data) rest).map fun r => (Json.bool true, r)
    else if c = Char.ofNat 102 then
      (stripLead ("alse".data) rest).map fun r => (Json.bool false, r)
    else if c = Char.ofNat 110 then
      (stripLead ("ull".data) rest).map fun r => (Json.null, r)
    else if c = Char.ofNat 45 || isDigit c then
      (scanNum (c :: rest)).map fun p => (Json.num p.1, p.2)
    else none

/-- Parse the inside of an object, just after the opening brace. -/
def parseObjStart : Nat → List Char → Option (Json × List Char)
  | 0, _ => none
  | f + 1, s =>
    match skipWs s with
    | [] => none
    | c :: rest =>
      if c = Char.ofNat 125 then some (Json.obj [], rest)
      else parseObjRest f (c :: rest) []

/-- Parse members of an object: `"key" : value` pairs separated by commas,
finished by a closing brace. -/
def parseObjRest : Nat → List Char → List (List Char × Json) →
    Option (Json × List Char)
  | 0, _, _ => none
  | f + 1, s, acc =>
    match skipWs s with
    | [] => none
    | c :: rest =>
      if c = qChar then
        match strBody f rest with
        | none => none
        | some (key, r2) =>
          match skipWs r2 with
          | [] => none
          | c2 :: r3 =>
            if c2 = Char.ofNat 58 then
              match parseVal f (skipWs r3) with
              | none => none
              | some (v, r4) =>
                match skipWs r4 with
                | [] => none
                | c3 :: r5 =>
                  if c3 = Char.ofNat 44 then
                    parseObjRest f r5 (acc ++ [(key, v)])
                  else if c3 = Char.ofNat 125 then
                    some (Json.obj (acc ++ [(key, v)]), r5)
                  else none
            else none
      else none

/-- Parse the inside of an array, just after the opening bracket. -/
def parseArrStart : Nat → List Char → Option (Json × List Char)
  | 0, _ => none
  | f + 1, s =>
    match skipWs s with
    | [] => none
    | c :: rest =>
      if c = Char.ofNat 93 then some (Json.arr [], rest)
      else parseArrRest f (c :: rest) []

/-- Parse elements of an array separated by commas, finished by a closing
bracket. -/
def parseArrRest : Nat → List Char → List Json → Option (Json × List Char)
  | 0, _, _ => none
  | f + 1, s, acc =>
    match parseVal f (skipWs s) with
    | none => none
    | some (v, r) =>
      match skipWs r with
      | [] => none
      | c :: r2 =>
        if c = Char.ofNat 44 then parseArrRest f r2 (acc ++ [v])
        else if c = Char.ofNat 93 then some (Json.arr (acc ++ [v]), r2)
        else none

end

/-- Model of `JSON.parse(s)`: parse one value surrounded by optional
whitespace; anything else throws (returns `none`). -/
def jsonParse (s : List Char) : Option Json :=
  match parseVal (s.length + 1) (skipWs s) with
  | some (j, rest) => if skipWs rest = [] then some j else none
  | none => none

/-! ### JS property access and string coercion -/

/-- Duplicate keys in a JSON text: `JSON.parse` keeps the last binding. -/
def lookupLastKey (key : List Char) : List (List Char × Json) → Option Json
  | [] => none
  | (k, v) :: rest =>
    match lookupLastKey key rest with
    | some w => some w
    | none => if k = key then some v else none

/-- Model of the `obj.response` access in the source: on `null` the access
throws a TypeError (outer `none`); on an object it yields the property value
or `undefined` (`some none`); on any other value it yields `undefined`. -/
def getResponse : Json → Option (Option Json)
  | Json.null => none
  | Json.obj kvs => some (lookupLastKey ("response".data) kvs)
  | _ => some none

mutual

/-- Model of the JS `String()` coercion of a JSON value, as performed by
`aggregatedText += jsonObj.response` in the source. -/
def jsToStringJ : Json → List Char
  | Json.null => "null".data
  | Json.bool true => "true".data
  | Json.bool false => "false".data
  | Json.num raw => raw
  | Json.str s => s
  | Json.arr xs => arrToString xs
  | Json.obj _ => "[object Object]".data

/-- JS `Array.prototype.toString`: elements coerced (null as empty), joined
with commas. -/
def arrToString : List Json → List Char
  | [] => []
  | [Json.null] => []
  | [x] => jsToStringJ x
  | Json.null :: xs => Char.ofNat 44 :: arrToString xs
  | x :: xs => jsToStringJ x ++ Char.ofNat 44 :: arrToString xs

end

/-- String coercion of the possibly-undefined `obj.response`. -/
def jsToString : Option Json → List Char
  | none => "undefined".data
  | some j => jsToStringJ j

/-- The body of the `try` block shared by all decoder variants:
`JSON.parse(line)` followed by the `.response` access.  `none` means the
block threw (the line is skipped); `some v` means the value `v` (possibly
`undefined`) is used. -/
def tryLine (l : List Char) : Option (Option Json) :=
  match jsonParse l with
  | none => none
  | some j => getResponse j

/-! ### The per-line decoding logic shared by the decoder variants -/

/-- Line handling of `transformOllamaStream`: a line is considered only when
`line.trim()` is truthy; the `try` block then either enqueues the
`.response` value or throws (skip).  `none`: nothing enqueued for the line;
`some v`: the value `v` is enqueued. -/
def emitLine (l : List Char) : Option (Option Json) :=
  if trimNonempty l then tryLine l else none

/-- Values enqueued for a list of lines, in order. -/
def emitLines (ls : List (List Char)) : List (Option Json) :=
  ls.filterMap emitLine

/-! ### transformOllamaStream (src/unnamed/part_000 lines 27-64) -/

/-- One `transform(chunk, controller)` call at text level: append the decoded
text to the retained buffer, split on newlines, pop the trailing piece back
into the buffer, and process every complete line.  Returns the new buffer and
the enqueued values. -/
def transformStep (buffer text : List Char) : List Char × List (Option Json) :=
  let p := breakNl (buffer ++ text)
  (p.2, emitLines p.1)

/-- The `flush(controller)` callback: if the retained buffer is non-blank,
parse it once and enqueue its `.response` on success. -/
def flushEmit (buffer : List Char) : List (Option Json) :=
  if trimNonempty buffer then
    match tryLine buffer with
    | some v => [v]
    | none => []
  else []

/-- Run the transform over a list of text chunks starting from a given
buffer, flushing at end of stream. -/
def transformRun (buffer : List Char) : List (List Char) → List (Option Json)
  | [] => flushEmit buffer
  | c :: cs =>
    let st := transformStep buffer c
    st.2 ++ transformRun st.1 cs

/-- The whole `transformOllamaStream` pipeline at text level (buffer starts
empty in `start(controller)`). -/
def transformPipelineText (chunks : List (List Char)) : List (Option Json) :=
  transformRun [] chunks

/-! ### The unbuffered read loops
(`continueTextConversation` and `continueConversation` in
src/src/app/actions.tsx lines 46-64 and 99-112, `accumulateOllamaResponse`
in src/unnamed/part_001 lines 24-46 and 146-169): each decoded chunk is
split on newlines on its own, every non-blank piece is parsed immediately,
and `aggregatedText += jsonObj.response` appends the string coercion of the
`.response` value.  No partial line is retained across chunks. -/

/-- Body of the `for (const line of lines)` loop of the unbuffered variants:
on success `aggregatedText += jsonObj.response` appends the coerced value,
on a caught exception nothing is appended. -/
def accumFoldStep (a l : List Char) : List Char :=
  match tryLine l with
  | some v => a ++ jsToString v
  | none => a

/-- One iteration of the unbuffered read loop at text level. -/
def accumChunkText (acc text : List Char) : List Char :=
  ((jsSplit text).filter trimNonempty).foldl accumFoldStep acc

/-- The unbuffered read loop over text chunks. -/
def accumulateText (chunks : List (List Char)) : List Char :=
  chunks.foldl accumChunkText []

/-! ### `TextDecoder` (WHATWG encoding standard, UTF-8 decoder, non-fatal)

State of the streaming UTF-8 decoder: accumulated code point, number of
continuation bytes needed and seen, and the accepted range for the next
byte.  Invalid input emits U+FFFD. -/

structure DecState where
  codepoint : Nat
  needed : Nat
  seen : Nat
  lower : Nat
  upper : Nat

/-- Fresh decoder state. -/
def initDecState : DecState := ⟨0, 0, 0, 0x80, 0xBF⟩

/-- Handle one byte in the initial state (no continuation pending). -/
def decStepZero (b : Nat) : DecState × List Char :=
  if b ≤ 0x7F then (initDecState, [Char.ofNat b])
  else if 0xC2 ≤ b && b ≤ 0xDF then
    ({ codepoint := b % 32, needed := 1, seen := 0, lower := 0x80, upper := 0xBF }, [])
  else if 0xE0 ≤ b && b ≤ 0xEF then
    ({ codepoint := b % 16, needed := 2, seen := 0,
       lower := if b = 0xE0 then 0xA0 else 0x80,
       upper := if b = 0xED then 0x9F else 0xBF }, [])
  else if 0xF0 ≤ b && b ≤ 0xF4 then
    ({ codepoint := b % 8, needed := 3, seen := 0,
       lower := if b = 0xF0 then 0x90 else 0x80,
       upper := if b = 0xF4 then 0x8F else 0xBF }, [])
  else (initDecState, [Char.ofNat 0xFFFD])

/-- Handle one byte: either start a sequence, continue one, or emit a
replacement character on error (an out-of-range continuation byte is pushed
back and reprocessed as a leading byte, per the WHATWG algorithm). -/
def decStep (st : DecState) (b : Nat) : DecState × List Char :=
  if st.needed = 0 then decStepZero b
  else if st.lower ≤ b && b ≤ st.upper then
    let cp := st.codepoint * 64 + b % 64
    if st.seen + 1 = st.needed then (initDecState, [Char.ofNat cp])
    else ({ codepoint := cp, needed := st.needed, seen := st.seen + 1,
            lower := 0x80, upper := 0xBF }, [])
  else
    let p := decStepZero b
    (p.1, Char.ofNat 0xFFFD :: p.2)

/-- Decode a byte list, threading the decoder state. -/
def decBytes (st : DecState) : List Nat → DecState × List Char
  | [] => (st, [])
  | b :: bs =>
    let p := decStep st b
    let q := decBytes p.1 bs
    (q.1, p.2 ++ q.2)

/-- A `TextDecoder` object: decoder state plus whether output has been
produced yet (a leading U+FEFF at the start of the stream is removed, per
the default `ignoreBOM: false`). -/
structure TDecoder where
  dec : DecState
  sawOutput : Bool

/-- A freshly constructed `new TextDecoder()`. -/
def initTDecoder : TDecoder := ⟨initDecState, false⟩

/-- Model of `decoder.decode(value, \x7b stream: true \x7d)`: incomplete
trailing bytes stay pending in the state (and are silently dropped if the
decoder is discarded, as the source never flushes). -/
def decodeChunk (td : TDecoder) (bytes : List Nat) : TDecoder × List Char :=
  let p := decBytes td.dec bytes
  if td.sawOutput then (⟨p.1, true⟩, p.2)
  else
    match p.2 with
    | [] => (⟨p.1, false⟩, [])
    | c :: cs => (⟨p.1, true⟩, if c = Char.ofNat 0xFEFF then cs else c :: cs)

/-- UTF-8 encoding of one character (used to build concrete byte inputs). -/
def utf8EncodeChar (c : Char) : List Nat :=
  let n := c.toNat
  if n < 0x80 then [n]
  else if n < 0x800 then [0xC0 + n / 64, 0x80 + n % 64]
  else if n < 0x10000 then [0xE0 + n / 4096, 0x80 + n / 64 % 64, 0x80 + n % 64]
  else [0xF0 + n / 262144, 0x80 + n / 4096 % 64, 0x80 + n / 64 % 64, 0x80 + n % 64]

/-- UTF-8 encoding of a string. -/
def utf8Encode (s : List Char) : List Nat := (s.map utf8EncodeChar).flatten

/-! ### Byte-level pipelines -/

/-- `transformOllamaStream` constructs `new TextDecoder()` inside every
`transform` call (part_000 line 34), so each chunk is decoded by a fresh
decoder and no decode state survives a chunk boundary. -/
def freshDecode (bytes : List Nat) : List Char :=
  (decodeChunk initTDecoder bytes).2

/-- The whole `transformOllamaStream` pipeline on byte chunks. -/
def transformBytes (chunks : List (List Nat)) : List (Option Json) :=
  transformPipelineText (chunks.map freshDecode)

/-- The unbuffered read loops construct one `TextDecoder` before the loop
and call it with `\x7b stream: true \x7d` on every chunk, so decode state is
carried across chunks. -/
def accumulateBytes (chunks : List (List Nat)) : List Char :=
  (chunks.foldl
    (fun (p : TDecoder × List Char) bytes =>
      let d := decodeChunk p.1 bytes
      (d.1, accumChunkText p.2 d.2))
    (initTDecoder, [])).2

/-! ### Conversation data model

The spec data model (ChatMessage): role, content, and an optional plain
display payload.  The plain-JSON variants of the source (part_000 second
module, part_001 second module) declare `display?: string`; the embedding
uses that plain form. -/

inductive Role where
  | user : Role
  | assistant : Role
deriving DecidableEq

structure Message where
  role : Role
  content : List Char
  display : Option (List Char)
deriving DecidableEq

/-- The `\x7b messages: [...] \x7d` object returned by
`continueConversation`. -/
structure ConvResult where
  messages : List Message
deriving DecidableEq

/-! ### Prompt construction -/

/-- `messages.map(msg => msg.content).join("\n")`, common to all variants. -/
def conversationText (msgs : List Message) : List Char :=
  joinNl (msgs.map Message.content)

/-- Prompt of the src/src/app/actions.tsx variants (lines 27 and 80): the
joined contents only, no system prompt. -/
def promptPlain (messages : List Message) : List Char :=
  conversationText messages

/-- Default system prompt of the part_000 second module. -/
def defaultSystemPromptA : List Char :=
  ("You are assistant of someone called Shovian, you call him Master Shovian. Now,").data

/-- Default system prompt of the part_001 second module. -/
def defaultSystemPromptB : List Char :=
  ("You are someone called Shovian\x27s assistant, and you call shovian Master.").data

/-- Prompt of the part_000 second module (line 213): template literal with a
blank line between system prompt and conversation.  The source declares the
systemPrompt parameter as optional, defaulting to `defaultSystemPromptA`. -/
def promptSystemA (messages : List Message) (systemPrompt : List Char) :
    List Char :=
  systemPrompt ++ nlChar :: nlChar :: conversationText messages

/-- Prompt of the part_001 second module (line 186): template literal with a
single newline between system prompt and conversation.  The source declares
the systemPrompt parameter as optional, defaulting to
`defaultSystemPromptB`. -/
def promptSystemB (messages : List Message) (systemPrompt : List Char) :
    List Char :=
  systemPrompt ++ nlChar :: conversationText messages

/-- The JSON body of the `POST /api/generate` request. -/
structure RequestBody where
  model : List Char
  prompt : List Char
  stream : Bool
deriving DecidableEq

/-- Request construction shared by the conversation operations. -/
def mkGenerateRequest (prompt : List Char) : RequestBody :=
  ⟨("tinyllama").data, prompt, true⟩

/-- Request sent by `continueTextConversation` in src/src/app/actions.tsx. -/
def continueTextConversationRequest (messages : List Message) : RequestBody :=
  mkGenerateRequest (promptPlain messages)

/-- Request sent by `continueTextConversation` in the part_000 second
module, with its system-prompt parameter (optional in the source; a caller
that omits it supplies `defaultSystemPromptA`). -/
def continueTextConversationRequestA (messages : List Message)
    (systemPrompt : List Char) : RequestBody :=
  mkGenerateRequest (promptSystemA messages systemPrompt)

/-- Request sent by `continueTextConversation` in the part_001 second
module, with its system-prompt parameter (optional in the source; a caller
that omits it supplies `defaultSystemPromptB`). -/
def continueTextConversationRequestB (messages : List Message)
    (systemPrompt : List Char) : RequestBody :=
  mkGenerateRequest (promptSystemB messages systemPrompt)

/-! ### The conversation operations

Each server action is embedded at its one suspension point: the awaited
`fetch` result is a parameter.  `FetchResponse.body` models
`response.body`, `none` when the endpoint returns no readable body, else
the sequence of byte chunks the reader will deliver. -/

structure FetchResponse where
  body : Option (List (List Nat))

/-- Error thrown at src/src/app/actions.tsx lines 39 and 92. -/
def noBodyMsgActions : List Char :=
  ("No response body from Ollama").data

/-- Error thrown by the part_000 and part_001 variants. -/
def noBodyMsgParts : List Char :=
  ("No response body returned from Ollama").data

/-- `continueTextConversation` of src/src/app/actions.tsx: throw if there is
no body, else run the unbuffered read loop and return the aggregated text.
(`JSON.parse(JSON.stringify(s))` on a string value is the identity and is
modelled as such.) -/
def continueTextConversation (messages : List Message)
    (resp : FetchResponse) : Except (List Char) (List Char) :=
  match resp.body with
  | none => Except.error noBodyMsgActions
  | some chunks => Except.ok (accumulateBytes chunks)

/-! ### Deep serialization of the returned object

`JSON.parse(JSON.stringify(updated))` is modelled at the AST level: encode
the result object to a `Json` value (`JSON.stringify` omits `undefined`
fields, hence a `none` display produces no `display` key) and decode it
back.  The textual serialization in between is injective on these values
and is elided. -/

def roleText : Role → List Char
  | Role.user => ("user").data
  | Role.assistant => ("assistant").data

def roleOfText (s : List Char) : Option Role :=
  if s = ("user").data then some Role.user
  else if s = ("assistant").data then some Role.assistant
  else none

def msgToJson (m : Message) : Json :=
  Json.obj ([(("role").data, Json.str (roleText m.role)),
             (("content").data, Json.str m.content)] ++
    (match m.display with
     | none => []
     | some d => [(("display").data, Json.str d)]))

def msgOfJson : Json → Option Message
  | Json.obj kvs =>
    (match lookupLastKey (("role").data) kvs with
     | some (Json.str r) =>
       (match roleOfText r with
        | some role =>
          (match lookupLastKey (("content").data) kvs with
           | some (Json.str c) =>
             (match lookupLastKey (("display").data) kvs with
              | none => some ⟨role, c, none⟩
              | some (Json.str d) => some ⟨role, c, some d⟩
              | some _ => none)
           | _ => none)
        | none => none)
     | _ => none)
  | _ => none

def msgsOfJson : List Json → Option (List Message)
  | [] => some []
  | j :: js =>
    match msgOfJson j, msgsOfJson js with
    | some m, some ms => some (m :: ms)
    | _, _ => none

def resultToJson (r : ConvResult) : Json :=
  Json.obj [(("messages").data, Json.arr (r.messages.map msgToJson))]

def resultOfJson : Json → Option ConvResult
  | Json.obj kvs =>
    (match lookupLastKey (("messages").data) kvs with
     | some (Json.arr js) => (msgsOfJson js).map ConvResult.mk
     | _ => none)
  | _ => none

/-- `continueConversation` of src/src/app/actions.tsx: throw if there is no
body, else aggregate the stream, append one assistant message whose content
and display are the aggregated text, deep-serialize, and return the updated
messages object. -/
def continueConversation (history : List Message) (resp : FetchResponse) :
    Except (List Char) ConvResult :=
  match resp.body with
  | none => Except.error noBodyMsgActions
  | some chunks =>
    let plainText := accumulateBytes chunks
    let updated : ConvResult :=
      ⟨history ++ [⟨Role.assistant, plainText, some plainText⟩]⟩
    match resultOfJson (resultToJson updated) with
    | some r => Except.ok r
    | none => Except.error ("serialization failure").data

/-- `checkAIAvailability` (src/src/app/actions.tsx lines 136-138): the body
is the single statement `return true`; it performs no request and reads no
state, so it is a constant of the embedding. -/
def checkAIAvailability : Bool := true

/-! ### Auxiliary notions used in the stated properties -/

/-- A malformed line: non-blank but rejected by `JSON.parse`. -/
def malformedLine (l : List Char) : Bool :=
  trimNonempty l && (jsonParse l).isNone

/-- The string fragments among the enqueued values. -/
def fragStrings (es : List (Option Json)) : List (List Char) :=
  es.filterMap fun v =>
    match v with
    | some (Json.str s) => some s
    | _ => none

/-! ### Concrete inputs used in witnesses and counterexamples -/

/-- First half of a single JSON line, split mid-line. -/
def cexMidLineA : List Nat := utf8Encode (("\x7b\"resp").data)

/-- Second half of that line, with its terminating newline. -/
def cexMidLineB : List Nat := utf8Encode (("onse\":\"Hi\"\x7d\n").data)

/-- A line whose response field holds one two-byte character (u with
diaeresis, bytes C3 BC), cut before the first byte of that character. -/
def cexMidCharA : List Nat := utf8Encode (("\x7b\"response\":\"").data) ++ [0xC3]

/-- Continuation of that line, starting with the second byte. -/
def cexMidCharB : List Nat := [0xBC] ++ utf8Encode (("\"\x7d\n").data)

/-- The three buffers of the spec example. -/
def c2chunkA : List Nat := utf8Encode (("\x7b\"response\":\"Hel").data)

def c2chunkB : List Nat := utf8Encode (("lo\"\x7d\n\x7b\"respon").data)

def c2chunkC : List Nat := utf8Encode (("se\":\" world\"\x7d\n").data)

/-- A line whose response field holds one two-byte character (e with acute,
bytes C3 A9), cut before the first byte of that character. -/
def c3chunkA : List Nat := utf8Encode (("\x7b\"response\":\"").data) ++ [0xC3]

/-- Continuation of that line, starting with the second byte. -/
def c3chunkB : List Nat := [0xA9] ++ utf8Encode (("\"\x7d\n").data)

/-- One text chunk ending in an unterminated complete JSON line. -/
def c4chunk : List Char :=
  ("\x7b\"response\":\"a\"\x7d\n\x7b\"response\":\"b\"\x7d").data

/-- The unterminated trailing line of `c4chunk`. -/
def c4tail : List Char := ("\x7b\"response\":\"b\"\x7d").data

/-- Two text chunks splitting one JSON line mid-line. -/
def c1chunkA : List Char := ("\x7b\"response\":\"He").data

def c1chunkB : List Char := ("llo\"\x7d\n").data

/-- A one-message history. -/
def oneUserHi : List Message := [⟨Role.user, ("hi").data, none⟩]

/-- A response stream carrying one well-formed line. -/
def c8bytes : List (List Nat) :=
  [utf8Encode (("\x7b\"response\":\"ok\"\x7d\n").data)]

/-- A fetch response with that body. -/
def respOk : FetchResponse := ⟨some c8bytes⟩

/-- A valid JSON line with no response field. -/
def c10line : List Char := ("\x7b\"done\":true\x7d").data

/-! ## Theorems -/

theorem mergeBreak_nil (p : List (List Char) × List Char) :
    mergeBreak [] p = p := by
  rcases p with ⟨ls, t⟩
  cases ls <;> simp [mergeBreak]

theorem breakNl_cons (c : Char) (cs : List Char) :
    breakNl (c :: cs) =
      if c = nlChar then ([] :: (breakNl cs).1, (breakNl cs).2)
      else mergeBreak [c] (breakNl cs) := by
  by_cases hc : c = nlChar
  · simp [breakNl, hc]
  · rcases h : (breakNl cs).1 with _ | ⟨l, ls⟩ <;>
      simp [breakNl, mergeBreak, hc, h]

theorem breakNl_append (a b : List Char) :
    breakNl (a ++ b) =
      ((breakNl a).1 ++ (mergeBreak (breakNl a).2 (breakNl b)).1,
       (mergeBreak (breakNl a).2 (breakNl b)).2) := by
  induction a with
  | nil => simp [breakNl, mergeBreak_nil]
  | cons c a ih =>
    rcases hA : breakNl a with ⟨As, At⟩
    rcases hB : breakNl b with ⟨Bs, Bt⟩
    rw [hA, hB] at ih
    rw [List.cons_append, breakNl_cons, breakNl_cons, ih, hA]
    by_cases hc : c = nlChar
    · rw [if_pos hc, if_pos hc]
      simp
    · rw [if_neg hc, if_neg hc]
      rcases As with _ | ⟨l, ls⟩ <;> rcases Bs with _ | ⟨m, ms⟩ <;>
        simp [mergeBreak, List.append_assoc]

theorem breakNl_tail_noNl (s : List Char) : nlChar ∉ (breakNl s).2 := by
  induction s with
  | nil => simp [breakNl]
  | cons c cs ih =>
    rw [breakNl_cons]
    by_cases hc : c = nlChar
    · simpa [hc] using ih
    · rw [if_neg hc]
      rcases h : (breakNl cs).1 with _ | ⟨l, ls⟩
      · simp only [mergeBreak, h, List.singleton_append]
        intro hmem
        rcases List.mem_cons.mp hmem with h1 | h2
        · exact hc h1.symm
        · exact ih h2
      · simp only [mergeBreak, h]
        exact ih

theorem breakNl_of_noNl (s : List Char) (h : nlChar ∉ s) :
    breakNl s = ([], s) := by
  induction s with
  | nil => rfl
  | cons c cs ih =>
    simp only [List.mem_cons, not_or] at h
    rw [breakNl_cons, if_neg (fun hc => h.1 hc.symm), ih h.2]
    simp [mergeBreak]

/-! ### The transform pipeline is the line decomposition of the whole stream -/

theorem emitLines_append (a b : List (List Char)) :
    emitLines (a ++ b) = emitLines a ++ emitLines b := by
  simp [emitLines]

theorem flushEmit_eq (b : List Char) : flushEmit b = emitLines [b] := by
  unfold flushEmit emitLines emitLine List.filterMap
  by_cases h : trimNonempty b
  · rw [if_pos h, if_pos h]
    cases tryLine b <;> simp [List.filterMap]
  · rw [if_neg h, if_neg h]
    simp [List.filterMap]

theorem transformRun_eq (chunks : List (List Char)) :
    ∀ buffer : List Char, nlChar ∉ buffer →
      transformRun buffer chunks =
        emitLines (breakNl (buffer ++ chunks.flatten)).1 ++
          flushEmit (breakNl (buffer ++ chunks.flatten)).2 := by
  induction chunks with
  | nil =>
    intro buffer h
    rw [List.flatten_nil, List.append_nil, breakNl_of_noNl buffer h]
    simp [transformRun, emitLines]
  | cons c cs ih =>
    intro buffer h
    have hP := breakNl_tail_noNl (buffer ++ c)
    have hIH := ih (breakNl (buffer ++ c)).2 hP
    have hTail : breakNl ((breakNl (buffer ++ c)).2 ++ cs.flatten) =
        mergeBreak (breakNl (buffer ++ c)).2 (breakNl cs.flatten) := by
      rw [breakNl_append, breakNl_of_noNl _ hP]
      simp
    have hApp2 : breakNl (buffer ++ (c ++ cs.flatten)) =
        ((breakNl (buffer ++ c)).1 ++
           (mergeBreak (breakNl (buffer ++ c)).2 (breakNl cs.flatten)).1,
         (mergeBreak (breakNl (buffer ++ c)).2 (breakNl cs.flatten)).2) := by
      rw [← List.append_assoc]
      exact breakNl_append (buffer ++ c) cs.flatten
    show (transformStep buffer c).2 ++
        transformRun (transformStep buffer c).1 cs = _
    simp only [transformStep]
    rw [hIH, hTail, List.flatten_cons, hApp2, emitLines_append,
      List.append_assoc]

theorem transform_eq_lines (chunks : List (List Char)) :
    transformPipelineText chunks = emitLines (jsSplit chunks.flatten) := by
  have h := transformRun_eq chunks [] (by simp)
  rw [List.nil_append] at h
  rw [transformPipelineText, h, jsSplit, emitLines_append, flushEmit_eq]

/-! ### Serialization roundtrip -/

theorem msgOfJson_msgToJson (m : Message) : msgOfJson (msgToJson m) = some m := by
  rcases m with ⟨role, c, d⟩
  cases role <;> cases d <;> rfl

theorem msgsOfJson_map (ms : List Message) :
    msgsOfJson (ms.map msgToJson) = some ms := by
  induction ms with
  | nil => rfl
  | cons m ms ih => simp [msgsOfJson, msgOfJson_msgToJson, ih]

theorem resultOfJson_resultToJson (r : ConvResult) :
    resultOfJson (resultToJson r) = some r := by
  rcases r with ⟨ms⟩
  simp [resultToJson, resultOfJson, lookupLastKey, msgsOfJson_map]

/-! ### Malformed lines -/

theorem trimNonempty_of_malformed (l : List Char)
    (h : malformedLine l = true) : trimNonempty l = true := by
  simp [malformedLine] at h
  exact h.1

theorem tryLine_of_malformed (l : List Char) (h : malformedLine l = true) :
    tryLine l = none := by
  simp [malformedLine] at h
  rw [tryLine, h.2]

theorem emitLine_of_malformed (l : List Char) (h : malformedLine l = true) :
    emitLine l = none := by
  rw [emitLine]
  by_cases ht : trimNonempty l
  · rw [if_pos ht]
    exact tryLine_of_malformed l h
  · rw [if_neg ht]

theorem accumFoldStep_of_malformed (l : List Char)
    (h : malformedLine l = true) (a : List Char) : accumFoldStep a l = a := by
  rw [accumFoldStep, tryLine_of_malformed l h]

theorem emitLines_filter_malformed (ls : List (List Char)) :
    emitLines (ls.filter fun l => !malformedLine l) = emitLines ls := by
  induction ls with
  | nil => rfl
  | cons l ls ih =>
    by_cases h : malformedLine l = true
    · rw [List.filter_cons]
      simp only [h, Bool.not_true, Bool.false_eq_true, if_false]
      rw [ih]
      show _ = emitLines ([l] ++ ls)
      rw [emitLines_append]
      simp [emitLines, emitLine_of_malformed l h]
    · rw [List.filter_cons]
      simp only [h, Bool.not_false, Bool.not_eq_true] at *
      simp only [h, Bool.not_false, if_true]
      show emitLines ([l] ++ _) = emitLines ([l] ++ _)
      rw [emitLines_append, emitLines_append, ih]

/-! ## Claims -/

/-- C1 (corrected).  As stated, the claim asserts re-chunking invariance for
all three decoder loops, over arbitrary byte-buffer boundaries.  The
counterexample refutes it; the theorem proves the amended claim: for the
buffered transformOllamaStream, over every sequence of text chunks (byte
boundaries at character positions), if the lines of the concatenation emit
exactly the string fragments r1..rN, in order, then the pipeline emits
exactly those fragments, and its output is invariant under every
re-chunking of the same text. -/
theorem c1_decoder_emits_fragments_rechunk_invariant
    (chunks : List (List Char)) (rs : List (List Char))
    (h : emitLines (jsSplit chunks.flatten) =
      rs.map fun r => some (Json.str r)) :
    transformPipelineText chunks = (rs.map fun r => some (Json.str r)) ∧
    ∀ other : List (List Char), other.flatten = chunks.flatten →
      transformPipelineText other = transformPipelineText chunks := by
  refine ⟨by rw [transform_eq_lines, h], ?_⟩
  intro other ho
  rw [transform_eq_lines, transform_eq_lines, ho]

/-- Witness for C1: a line split mid-line across two text chunks still
yields its single fragment. -/
theorem c1_decoder_emits_fragments_rechunk_invariant_witness :
    transformPipelineText [c1chunkA, c1chunkB] =
      [some (Json.str (("Hello").data))] :=
  (c1_decoder_emits_fragments_rechunk_invariant [c1chunkA, c1chunkB]
    [("Hello").data] rfl).1

/-- Counterexample for C1 as stated: the unbuffered read loops of
continueTextConversation and accumulateOllamaResponse lose the fragment
"Hi" when the buffer boundary falls mid-line, and transformOllamaStream
corrupts the fragment when the boundary falls inside a two-byte character
(it decodes each chunk with a fresh TextDecoder), emitting U+FFFD instead
of the character U+00FC. -/
theorem c1_unbuffered_and_midchar_counterexample :
    accumulateBytes [cexMidLineA, cexMidLineB] = [] ∧
    accumulateBytes [cexMidLineA ++ cexMidLineB] = ("Hi").data ∧
    transformBytes [cexMidCharA, cexMidCharB] =
      [some (Json.str [Char.ofNat 0xFFFD])] ∧
    transformBytes [cexMidCharA ++ cexMidCharB] =
      [some (Json.str [Char.ofNat 0xFC])] :=
  ⟨rfl, rfl, rfl, rfl⟩

/-- C2 (corrected).  The three buffers of the spec example yield exactly the
fragments "Hello" and " world", concatenating to "Hello world", under the
buffered transformOllamaStream; the theorem proves that amended claim.  The
unbuffered read loop of continueTextConversation cited by the claim emits
nothing on the same input (see the counterexample). -/
theorem c2_three_buffer_example :
    transformBytes [c2chunkA, c2chunkB, c2chunkC] =
      [some (Json.str (("Hello").data)), some (Json.str ((" world").data))] ∧
    (fragStrings (transformBytes [c2chunkA, c2chunkB, c2chunkC])).flatten =
      ("Hello world").data :=
  ⟨rfl, rfl⟩

/-- Counterexample for C2 as stated: the unbuffered read loop of
continueTextConversation (and accumulateOllamaResponse) aggregates nothing
at all from the three example buffers, not "Hello world". -/
theorem c2_unbuffered_counterexample :
    accumulateBytes [c2chunkA, c2chunkB, c2chunkC] = [] ∧
    accumulateBytes [c2chunkA, c2chunkB, c2chunkC] ≠ ("Hello world").data :=
  ⟨rfl, by decide⟩

/-- C3 (code bug).  The spec requires the byte-to-text decode step to be
stateful across buffers; transformOllamaStream constructs a new TextDecoder
inside every transform call, so a two-byte character (e with acute, bytes
C3 A9) split across buffers decodes to U+FFFD: the emitted fragment differs
from the single-buffer run.  The single TextDecoder of the
continueTextConversation read loop, fed the same two buffers, reconstructs
the character correctly at the decode step. -/
theorem c3_fresh_decoder_corrupts_split_char :
    transformBytes [c3chunkA, c3chunkB] =
      [some (Json.str [Char.ofNat 0xFFFD])] ∧
    transformBytes [c3chunkA ++ c3chunkB] =
      [some (Json.str [Char.ofNat 0xE9])] ∧
    (decodeChunk (decodeChunk initTDecoder c3chunkA).1 c3chunkB).2 =
      Char.ofNat 0xE9 :: ("\"\x7d\n").data ∧
    freshDecode c3chunkA ++ freshDecode c3chunkB =
      ("\x7b\"response\":\"").data ++ Char.ofNat 0xFFFD :: ("\"\x7d\n").data :=
  ⟨rfl, rfl, rfl, rfl⟩

/-- C4 (confirmed).  When the stream completes, the retained unterminated
tail (the part of the byte stream after the last newline) is handled once
at flush: a blank tail is discarded emitting nothing; a non-blank tail that
parses emits exactly its response value at the end; a non-blank tail that
fails to parse emits nothing, in every case without any fault. -/
theorem c4_trailing_partial_line_flush (chunks : List (List Char))
    (tl : List Char) (h : (breakNl chunks.flatten).2 = tl) :
    (jsTrim tl = [] →
      transformPipelineText chunks = emitLines (breakNl chunks.flatten).1) ∧
    (jsTrim tl ≠ [] → ∀ v : Option Json, tryLine tl = some v →
      transformPipelineText chunks =
        emitLines (breakNl chunks.flatten).1 ++ [v]) ∧
    (jsTrim tl ≠ [] → tryLine tl = none →
      transformPipelineText chunks = emitLines (breakNl chunks.flatten).1) := by
  have hp : transformPipelineText chunks =
      emitLines (breakNl chunks.flatten).1 ++ emitLines [tl] := by
    rw [transform_eq_lines, jsSplit, emitLines_append, h]
  refine ⟨?_, ?_, ?_⟩
  · intro ht
    have htne : trimNonempty tl = false := by simp [trimNonempty, ht]
    rw [hp]
    simp [emitLines, List.filterMap, emitLine, htne]
  · intro ht v hv
    have htne : trimNonempty tl = true := by
      simpa [trimNonempty, List.isEmpty_iff] using ht
    rw [hp]
    simp [emitLines, List.filterMap, emitLine, htne, hv]
  · intro ht hv
    have htne : trimNonempty tl = true := by
      simpa [trimNonempty, List.isEmpty_iff] using ht
    rw [hp]
    simp [emitLines, List.filterMap, emitLine, htne, hv]

/-- Witness for C4: a stream ending in an unterminated complete line emits
that final response value exactly once at flush. -/
theorem c4_trailing_partial_line_flush_witness :
    jsTrim c4tail ≠ [] ∧
    tryLine c4tail = some (some (Json.str (("b").data))) ∧
    transformPipelineText [c4chunk] =
      emitLines (breakNl (List.flatten [c4chunk])).1 ++
        [some (Json.str (("b").data))] :=
  ⟨by decide, rfl,
    (c4_trailing_partial_line_flush [c4chunk] c4tail rfl).2.1 (by decide)
      (some (Json.str (("b").data))) rfl⟩

/-- C5 (confirmed).  A malformed line is skipped without emitting a
fragment and without any observable fault: the transform pipeline output
equals its output with the malformed lines removed, the unbuffered
accumulation over any list of lines is likewise unchanged by removing the
malformed lines, and a malformed line on its own emits nothing and appends
nothing. -/
theorem c5_malformed_lines_skipped :
    (∀ chunks : List (List Char),
      transformPipelineText chunks =
        emitLines ((jsSplit chunks.flatten).filter fun l => !malformedLine l)) ∧
    (∀ (ls : List (List Char)) (acc : List Char),
      (ls.filter trimNonempty).foldl accumFoldStep acc =
        ((ls.filter fun l => !malformedLine l).filter trimNonempty).foldl
          accumFoldStep acc) ∧
    (∀ l : List Char, malformedLine l = true →
      emitLines [l] = [] ∧ ∀ a : List Char, accumFoldStep a l = a) := by
  refine ⟨?_, ?_, ?_⟩
  · intro chunks
    rw [transform_eq_lines, emitLines_filter_malformed]
  · intro ls
    induction ls with
    | nil => intro acc; rfl
    | cons l ls ih =>
      intro acc
      by_cases h : malformedLine l = true
      · have ht := trimNonempty_of_malformed l h
        rw [List.filter_cons, List.filter_cons, if_pos ht]
        simp only [h, Bool.not_true, Bool.false_eq_true, if_false]
        rw [List.foldl_cons, accumFoldStep_of_malformed l h]
        exact ih acc
      · rw [List.filter_cons, List.filter_cons]
        simp only [h, Bool.not_false, Bool.not_eq_true, if_true]
        by_cases ht : trimNonempty l
        · rw [if_pos ht, List.filter_cons, if_pos ht, List.foldl_cons,
            List.foldl_cons]
          exact ih (accumFoldStep acc l)
        · rw [if_neg ht, List.filter_cons, if_neg ht]
          exact ih acc
  · intro l h
    refine ⟨?_, accumFoldStep_of_malformed l h⟩
    simp [emitLines, List.filterMap, emitLine_of_malformed l h]

/-- C6 (confirmed).  When the fetch response carries no readable body, both
conversation operations fail immediately with the fatal no-body error, and
no result object (hence no extended history) is produced: the error is
atomic with respect to the history, which, being a pure value of the
embedding, is returned to the caller unchanged. -/
theorem c6_no_body_fatal_error (resp : FetchResponse)
    (h : resp.body = none) (history messages : List Message) :
    continueConversation history resp = Except.error noBodyMsgActions ∧
    continueTextConversation messages resp = Except.error noBodyMsgActions ∧
    ∀ r : ConvResult, continueConversation history resp ≠ Except.ok r := by
  rcases resp with ⟨body⟩
  cases h
  exact ⟨rfl, rfl, fun r hr => Except.noConfusion hr⟩

/-- Witness for C6: a bodyless response makes both operations fail. -/
theorem c6_no_body_fatal_error_witness :
    continueConversation [] ⟨none⟩ = Except.error noBodyMsgActions ∧
    continueTextConversation [] ⟨none⟩ = Except.error noBodyMsgActions :=
  ⟨(c6_no_body_fatal_error ⟨none⟩ rfl [] []).1,
   (c6_no_body_fatal_error ⟨none⟩ rfl [] []).2.1⟩

/-- C7 (corrected).  The system-prompt behaviour holds only for the
part_000 and part_001 secondary variants: each accepts a system-prompt
parameter (optional in the source, with the fixed defaults embedded here)
and sends systemPrompt, a separator (a blank line in the part_000 variant,
a single newline in the part_001 variant), then the newline-joined message
contents.  The variants of src/src/app/actions.tsx take no system prompt
and send only the joined contents (see the counterexample). -/
theorem c7_prompt_construction (systemPrompt : List Char)
    (messages : List Message) :
    (continueTextConversationRequestA messages systemPrompt).prompt =
      systemPrompt ++ nlChar :: nlChar :: conversationText messages ∧
    (continueTextConversationRequestB messages systemPrompt).prompt =
      systemPrompt ++ nlChar :: conversationText messages ∧
    (continueTextConversationRequestA messages defaultSystemPromptA).prompt =
      defaultSystemPromptA ++ nlChar :: nlChar :: conversationText messages ∧
    (continueTextConversationRequestB messages defaultSystemPromptB).prompt =
      defaultSystemPromptB ++ nlChar :: conversationText messages ∧
    (continueTextConversationRequest messages).prompt =
      conversationText messages ∧
    (continueTextConversationRequestA messages systemPrompt).model =
      ("tinyllama").data ∧
    (continueTextConversationRequestA messages systemPrompt).stream = true :=
  ⟨rfl, rfl, rfl, rfl, rfl, rfl, rfl⟩

/-- Counterexample for C7 as stated: the prompt sent by the
continueTextConversation of src/src/app/actions.tsx for a one-message
history is exactly the message content, not a system prompt followed by a
separator and the content, for either of the fixed defaults. -/
theorem c7_actions_no_system_prompt :
    (continueTextConversationRequest oneUserHi).prompt = ("hi").data ∧
    (continueTextConversationRequest oneUserHi).prompt ≠
      defaultSystemPromptA ++ nlChar :: nlChar :: ("hi").data ∧
    (continueTextConversationRequest oneUserHi).prompt ≠
      defaultSystemPromptB ++ nlChar :: ("hi").data :=
  ⟨rfl, by decide, by decide⟩

/-- C8 (confirmed).  On a response with a body, continueConversation
returns exactly the input history followed by one assistant message whose
content (and display) is the decoded text; prior messages appear unchanged
in their original positions, and the input history value is not mutated
(the embedding is pure and the output shares the history as given). -/
theorem c8_returns_history_plus_assistant (history : List Message)
    (resp : FetchResponse) (chunks : List (List Nat))
    (h : resp.body = some chunks) :
    continueConversation history resp =
      Except.ok ⟨history ++
        [⟨Role.assistant, accumulateBytes chunks,
          some (accumulateBytes chunks)⟩]⟩ := by
  rcases resp with ⟨body⟩
  cases h
  simp only [continueConversation, resultOfJson_resultToJson]

/-- Witness for C8: a concrete exchange extends the history by exactly the
assistant message "ok". -/
theorem c8_returns_history_plus_assistant_witness :
    continueConversation oneUserHi respOk =
      Except.ok ⟨oneUserHi ++
        [⟨Role.assistant, ("ok").data, some (("ok").data)⟩]⟩ :=
  c8_returns_history_plus_assistant oneUserHi respOk c8bytes rfl

/-- C9 (confirmed).  checkAIAvailability is the constant true: its source
body is the single statement returning true, so it returns true on every
call, independent of any endpoint state, and performs no request (the
embedding is a closed constant with no effect parameters). -/
theorem c9_check_ai_availability_true : checkAIAvailability = true := rfl

/-- C10 (confirmed).  A line that parses as JSON but yields no response
field is not skipped: the unbuffered accumulating loop appends the string
coercion of the undefined field, the literal text "undefined", so the
aggregate differs from the concatenation of actual string response fields
(the empty concatenation here). -/
theorem c10_missing_response_appends_undefined (l : List Char) (j : Json)
    (h0 : nlChar ∉ l) (h1 : trimNonempty l = true)
    (h2 : jsonParse l = some j) (h3 : getResponse j = some none) :
    accumulateText [l] = ("undefined").data ∧ accumulateText [l] ≠ [] := by
  have hs : jsSplit l = [l] := by
    rw [jsSplit, breakNl_of_noNl l h0]
    rfl
  have ht : tryLine l = some none := by
    rw [tryLine, h2]
    exact h3
  have he : accumulateText [l] = ("undefined").data := by
    show accumChunkText [] l = _
    rw [accumChunkText, hs]
    rw [List.filter_cons, if_pos h1]
    simp [accumFoldStep, ht, jsToString]
  exact ⟨he, by rw [he]; decide⟩

/-- Witness for C10: the valid line with only a done field appends the
text "undefined". -/
theorem c10_missing_response_appends_undefined_witness :
    accumulateText [c10line] = ("undefined").data :=
  (c10_missing_response_appends_undefined c10line
    (Json.obj [(("done").data, Json.bool true)])
    (by decide) (by decide) rfl rfl).1

end NextJsAiLite
